import Mathlib

/-
Verification of the core (non-UI) logic of the PS333 text-to-image
front-end (src/t2i.py): prompt composition, request-URL construction and
percent-encoding, the TTL-cached image fetch, the sequential batch
download loop, session history bookkeeping, and ZIP packaging.

Python strings are modelled as lists of characters, machine integers as
Nat, wall-clock time as explicit Nat parameters (milliseconds for the
seed formula, seconds for the fetch cache), and the network as an
explicit oracle passed to the fetch function.
-/

namespace T2I

/-- Python strings, modelled as lists of characters. -/
abbrev PyStr := List Char

/-- Whitespace recognised by Python str.strip() (ASCII subset). -/
def pyIsSpace (c : Char) : Bool :=
  c == ' ' || c == '\t' || c == '\n' || c == '\r' || c == '\x0b' || c == '\x0c'

/-- Python str.strip(): drop leading and trailing whitespace of the whole string. -/
def pyStrip (s : PyStr) : PyStr :=
  ((s.dropWhile pyIsSpace).reverse.dropWhile pyIsSpace).reverse

/-- Python str.lower() on ASCII text. -/
def pyLower (s : PyStr) : PyStr := s.map Char.toLower

/-- Decimal rendering of a natural number, as Python str() of a nonnegative int. -/
def natStr (n : Nat) : PyStr := (toString n).toList

/-- build_prompt from src/t2i.py: strip the whole of
f-string style-comma-prompt, then append the negative-prompt sentence
when the stripped negative prompt is nonempty. -/
def build_prompt (style prompt negative : PyStr) : PyStr :=
  let base := pyStrip (style ++ (" style, ").toList ++ prompt)
  if pyStrip negative = [] then base
  else base ++ (". Negative prompt: ").toList ++ pyStrip negative

/-- Characters urllib.parse.quote never encodes (its always-safe set):
ASCII letters, ASCII digits, underscore, period, hyphen, tilde. -/
def alwaysSafe (c : Char) : Bool :=
  (65 ≤ c.toNat && c.toNat ≤ 90) || (97 ≤ c.toNat && c.toNat ≤ 122) ||
    (48 ≤ c.toNat && c.toNat ≤ 57) ||
    c == '_' || c == '.' || c == '-' || c == '~'

/-- Uppercase hexadecimal digit, as in quote's percent-escapes. -/
def hexDigit (n : Nat) : Char :=
  Char.ofNat (if n < 10 then 48 + n else 55 + n)

/-- UTF-8 encoding of one character as its list of bytes. -/
def utf8Bytes (c : Char) : List Nat :=
  let n := c.toNat
  if n < 0x80 then [n]
  else if n < 0x800 then [0xC0 + n / 0x40, 0x80 + n % 0x40]
  else if n < 0x10000 then [0xE0 + n / 0x1000, 0x80 + n / 0x40 % 0x40, 0x80 + n % 0x40]
  else [0xF0 + n / 0x40000, 0x80 + n / 0x1000 % 0x40, 0x80 + n / 0x40 % 0x40, 0x80 + n % 0x40]

/-- Percent-escape of one byte: a percent sign and two uppercase hex digits. -/
def pctByte (b : Nat) : List Char := ['%', hexDigit (b / 16), hexDigit (b % 16)]

/-- urllib.parse.quote with its default safe set "/": safe characters pass
through, every other character is UTF-8 encoded and percent-escaped bytewise. -/
def quote (s : PyStr) : PyStr :=
  s.flatMap fun c =>
    if alwaysSafe c || c == '/' then [c] else (utf8Bytes c).flatMap pctByte

/-- pollinations_url from src/t2i.py: base URL with the encoded prompt and
the dimensions, plus a seed query parameter when a seed is given. -/
def pollinations_url (final_prompt : PyStr) (width height : Nat) (seed : Option Nat) : PyStr :=
  let encoded := quote final_prompt
  let url := ("https://image.pollinations.ai/prompt/").toList ++ encoded
      ++ ("?width=").toList ++ natStr width ++ ("&height=").toList ++ natStr height
  match seed with
  | some s => url ++ ("&seed=").toList ++ natStr s
  | none => url

/-- Time-to-live of the fetch cache, in seconds (ttl=60*60 in src/t2i.py). -/
def CACHE_TTL : Nat := 3600

/-- Fetch cache: URL to (payload bytes, fetch time in seconds), newest entry first. -/
abbrev Cache := List (PyStr × List Nat × Nat)

/-- Network layer behind fetch_image_bytes: requests.get followed by
raise_for_status, as an oracle from current time and URL to bytes or an error. -/
abbrev Net := Nat → PyStr → Except PyStr (List Nat)

/-- Uncached network fetch: on success the cache gains a fresh entry for the
URL; on error the cache is unchanged; the network is invoked either way. -/
def netFetch (net : Net) (now : Nat) (cache : Cache) (url : PyStr) :
    Except PyStr (List Nat) × Cache × Bool :=
  match net now url with
  | .ok b => (.ok b, (url, b, now) :: cache, true)
  | .error e => (.error e, cache, true)

/-- Modelled from the spec: the st.cache_data(show_spinner=False, ttl=60*60)
decorator wrapping fetch_image_bytes is framework code not present in the
repository. It is modelled as an explicit cache keyed by the exact URL
string: an entry fetched at time t is served without a network call while
now < t + 3600; an absent or expired entry triggers a real network fetch
whose success (re)populates the cache (errors are not cached). The Bool
result records whether the network layer was invoked. -/
def fetch_image_bytes (net : Net) (now : Nat) (cache : Cache) (url : PyStr) :
    Except PyStr (List Nat) × Cache × Bool :=
  match cache.lookup url with
  | some (b, t) =>
    if now < t + CACHE_TTL then (.ok b, cache, false)
    else netFetch net now cache url
  | none => netFetch net now cache url

/-- One history entry: the dict pushed by the generate loop
(url, prompt, style, w, h, seed, ts). -/
structure GenRecord where
  url : PyStr
  prompt : PyStr
  style : PyStr
  w : Nat
  h : Nat
  seed : Option Nat
  ts : PyStr
deriving DecidableEq

/-- Session state: st.session_state.history and st.session_state.favorites. -/
structure SessionState where
  history : List GenRecord
  favorites : List GenRecord
deriving DecidableEq

/-- History insertion: st.session_state.history.insert(0, rec). -/
def insertHistory (r : GenRecord) (s : SessionState) : SessionState :=
  { s with history := r :: s.history }

/-- Clear-history handler: st.session_state.history = []. -/
def clearHistory (s : SessionState) : SessionState :=
  { s with history := [] }

/-- Favorite promotion: st.session_state.favorites.insert(0, item). -/
def promoteToFavorite (r : GenRecord) (s : SessionState) : SessionState :=
  { s with favorites := r :: s.favorites }

/-- Seed mode selected in the UI. -/
inductive SeedMode where
  | Random
  | Fixed
deriving DecidableEq

/-- Per-variation seed: seed_i starts as seed_value and, in Random mode, is
overwritten by int(utcnow millis) mod 1000000 + i, where tms is the
wall-clock time in milliseconds sampled at iteration i. -/
def seed_i (mode : SeedMode) (seed_value : Option Nat) (tms : Nat) (i : Nat) : Option Nat :=
  match mode with
  | .Random => some (tms % 1000000 + i)
  | .Fixed => seed_value

/-- URL-building loop of the generate handler: one (url, seed) pair per
variation, the millisecond clock sampled once per loop iteration. -/
def buildUrls (clock : Nat → Nat) (mode : SeedMode) (seed_value : Option Nat)
    (final_prompt : PyStr) (w h : Nat) (variations : Nat) : List (PyStr × Option Nat) :=
  (List.range variations).map fun i =>
    let s := seed_i mode seed_value (clock i) i
    (pollinations_url final_prompt w h s, s)

/-- Python str() of an optional seed as embedded in the filename. -/
def seedStr (s : Option Nat) : PyStr :=
  match s with
  | some n => natStr n
  | none => ("None").toList

/-- Per-image filename: f-string ps333_style-lowercased_index_seed.png. -/
def filename (style : PyStr) (idx : Nat) (s : Option Nat) : PyStr :=
  ("ps333_").toList ++ pyLower style ++ ("_").toList ++ natStr idx
    ++ ("_seed").toList ++ seedStr s ++ (".png").toList

/-- Result of the download loop: successful (filename, bytes) pairs in order,
(index, reason) failures in order, the URLs attempted in order, and the
final cache and history. -/
structure BatchOut where
  images : List (PyStr × List Nat)
  failures : List (Nat × PyStr)
  attempts : List PyStr
  cache : Cache
  history : List GenRecord
deriving DecidableEq

/-- Download loop of the generate handler: for idx, (url, s) in
enumerate(urls, start=1), fetch each URL once in order; a success appends
(filename, bytes) and prepends a history record, a failure records
(index, reason) and the loop continues. times gives the fetch time of each
index and ts the record timestamp string. -/
def downloadLoop (net : Net) (times : Nat → Nat) (ts style final_prompt : PyStr)
    (w h : Nat) : Nat → Cache → List GenRecord → List (PyStr × Option Nat) → BatchOut
  | _, c, hist, [] => ⟨[], [], [], c, hist⟩
  | idx, c, hist, (url, s) :: rest =>
    match fetch_image_bytes net (times idx) c url with
    | (.ok b, c1, _) =>
      let rec1 : GenRecord := ⟨url, final_prompt, style, w, h, s, ts⟩
      let out := downloadLoop net times ts style final_prompt w h (idx + 1) c1 (rec1 :: hist) rest
      ⟨(filename style idx s, b) :: out.images, out.failures, url :: out.attempts,
        out.cache, out.history⟩
    | (.error e, c1, _) =>
      let out := downloadLoop net times ts style final_prompt w h (idx + 1) c1 hist rest
      ⟨out.images, (idx, e) :: out.failures, url :: out.attempts, out.cache, out.history⟩

/-- Everything the generate handler produces: final cache and session state,
the (url, seed) list built, the download-loop output, and whether the
blank-prompt warning fired instead of generating. -/
structure HandlerOut where
  cache : Cache
  state : SessionState
  urls : List (PyStr × Option Nat)
  batch : BatchOut
  warned : Bool
deriving DecidableEq

/-- Generate-button handler: a prompt that is empty after stripping only
warns and changes nothing; otherwise build the final prompt, one
(url, seed) per variation, and run the download loop, whose new history is
stored back into the session state (favorites untouched). -/
def generateHandler (net : Net) (clock times : Nat → Nat) (ts : PyStr)
    (prompt negative style : PyStr) (w h variations : Nat) (mode : SeedMode)
    (seed_value : Option Nat) (cache : Cache) (s : SessionState) : HandlerOut :=
  if pyStrip prompt = [] then
    ⟨cache, s, [], ⟨[], [], [], cache, s.history⟩, true⟩
  else
    let fp := build_prompt style prompt negative
    let urls := buildUrls clock mode seed_value fp w h variations
    let b := downloadLoop net times ts style fp w h 1 cache s.history urls
    ⟨b.cache, ⟨b.history, s.favorites⟩, urls, b, false⟩

/-- Modelled from the spec: zipfile.ZipFile with ZIP_DEFLATED is stdlib code
not present in the repository; an archive is modelled as its ordered list
of (entry name, entry bytes) pairs, the deflate compression being a
byte-level detail abstracted away. -/
abbrev ZipArchive := List (PyStr × List Nat)

/-- ZipFile.writestr: append one named entry to the archive. -/
def writestr (z : ZipArchive) (name : PyStr) (data : List Nat) : ZipArchive :=
  z ++ [(name, data)]

/-- to_zip from src/t2i.py: write every (name, data) pair into a fresh archive. -/
def to_zip (files : List (PyStr × List Nat)) : ZipArchive :=
  files.foldl (fun z nd => writestr z nd.1 nd.2) []

/-- Extraction of an archive: the list of its (name, content) entries. -/
def zipEntries (z : ZipArchive) : List (PyStr × List Nat) := z

/-! Helper lemmas shared by the claim theorems. -/

theorem char_beq_toNat (c d : Char) : (c == d) = (c.toNat == d.toNat) := by
  by_cases h : c = d
  · subst h; simp
  · have h2 : c.toNat ≠ d.toNat := fun e => h (Char.ext (UInt32.toNat.inj e))
    simp [h, h2]

theorem pyIsSpace_false_of_toNat (c : Char)
    (h : ¬ (c.toNat = 32 ∨ c.toNat = 9 ∨ c.toNat = 10 ∨ c.toNat = 13 ∨
        c.toNat = 11 ∨ c.toNat = 12)) : pyIsSpace c = false := by
  simp only [pyIsSpace, char_beq_toNat]
  simp only [show (' ').toNat = 32 from rfl, show ('\t').toNat = 9 from rfl,
    show ('\n').toNat = 10 from rfl, show ('\r').toNat = 13 from rfl,
    show ('\x0b').toNat = 11 from rfl, show ('\x0c').toNat = 12 from rfl]
  simp only [Bool.or_eq_false_iff, beq_eq_false_iff_ne, ne_eq]
  omega

theorem pyStrip_getLast?_not_space (l : PyStr) (c : Char)
    (h : (pyStrip l).getLast? = some c) : pyIsSpace c = false := by
  unfold pyStrip at h
  rw [List.getLast?_reverse] at h
  have h2 := List.head?_dropWhile_not pyIsSpace ((l.dropWhile pyIsSpace).reverse)
  rw [h] at h2
  exact h2

theorem getLast?_of_suffix {t u : PyStr} (h : t <:+ u) (c : Char)
    (ht : t.getLast? = some c) : u.getLast? = some c := by
  obtain ⟨r, rfl⟩ := h
  rw [List.getLast?_append, ht]
  rfl

/-- C2 counterexample: with style "Realistic", user prompt " cat" (one
leading space) and an empty negative prompt, build_prompt keeps the
prompt's leading whitespace, so its output does not begin with
"Realistic style, cat" (style-comma plus the trimmed user prompt) as the
claim requires. -/
theorem build_prompt_keeps_leading_space :
    build_prompt ("Realistic").toList (" cat").toList []
        = ("Realistic style,  cat").toList
    ∧ ¬ (("Realistic style, cat").toList <+: ("Realistic style,  cat").toList) := by
  constructor
  · decide
  · decide

/-- C2 (amended): build_prompt output begins with the whole string
style-comma-userPrompt stripped of leading and trailing whitespace (the
user prompt is not individually trimmed, so its interior leading
whitespace survives), and ends with the sentence period-space
Negative-prompt-colon-space plus the trimmed negative prompt exactly when
the negative prompt is nonempty after trimming. -/
theorem build_prompt_shape (style prompt negative : PyStr) :
    (pyStrip (style ++ (" style, ").toList ++ prompt) <+: build_prompt style prompt negative)
    ∧ (((". Negative prompt: ").toList ++ pyStrip negative) <:+ build_prompt style prompt negative
        ↔ pyStrip negative ≠ []) := by
  unfold build_prompt
  by_cases h : pyStrip negative = []
  · simp only [h, if_pos rfl, List.append_nil]
    refine ⟨List.prefix_rfl, ?_, fun hne => absurd rfl hne⟩
    intro hsuf
    exfalso
    have hlast : (pyStrip (style ++ (" style, ").toList ++ prompt)).getLast? = some ' ' :=
      getLast?_of_suffix hsuf ' ' (by decide)
    have := pyStrip_getLast?_not_space _ _ hlast
    simp [pyIsSpace] at this
  · simp only [if_neg h]
    exact ⟨⟨_, (List.append_assoc _ _ _).symm⟩, fun _ => h,
      fun _ => ⟨_, (List.append_assoc _ _ _).symm⟩⟩

/-- C3: pollinations_url yields exactly the base URL built from the
percent-encoded prompt, the width and the height, with the seed query
parameter appended precisely when a seed is given. -/
theorem pollinations_url_format (p : PyStr) (w h s : Nat) :
    pollinations_url p w h none
      = ("https://image.pollinations.ai/prompt/").toList ++ quote p
        ++ ("?width=").toList ++ natStr w ++ ("&height=").toList ++ natStr h
    ∧ pollinations_url p w h (some s)
      = ("https://image.pollinations.ai/prompt/").toList ++ quote p
        ++ ("?width=").toList ++ natStr w ++ ("&height=").toList ++ natStr h
        ++ ("&seed=").toList ++ natStr s :=
  ⟨rfl, rfl⟩

/-- C7: insertHistory prepends the record, making it the new head and
growing history by exactly one, with favorites untouched; clearHistory
empties history with favorites untouched. -/
theorem history_ops (s : SessionState) (r : GenRecord) :
    ((insertHistory r s).history.head? = some r
      ∧ (insertHistory r s).history.length = s.history.length + 1
      ∧ (insertHistory r s).favorites = s.favorites)
    ∧ ((clearHistory s).history.length = 0
      ∧ (clearHistory s).favorites = s.favorites) := by
  simp [insertHistory, clearHistory]

theorem to_zip_go (files : List (PyStr × List Nat)) :
    ∀ z : ZipArchive, files.foldl (fun z nd => writestr z nd.1 nd.2) z = z ++ files := by
  induction files with
  | nil => intro z; simp
  | cons hd tl ih =>
    intro z
    rw [List.foldl_cons, ih]
    simp [writestr]

/-- C8: the archive built by to_zip extracts to exactly the input
(name, bytes) pairs in input order, and the empty input yields the empty
archive; to_zip is a pure function of the input list. -/
theorem to_zip_entries (files : List (PyStr × List Nat)) :
    zipEntries (to_zip files) = files
    ∧ to_zip ([] : List (PyStr × List Nat)) = [] := by
  constructor
  · rw [zipEntries, to_zip, to_zip_go]
    rfl
  · rfl

/-- C1: in Random seed mode the seed of each variation is the wall-clock
time in milliseconds sampled at its loop iteration, modulo 1000000, plus
the variation's zero-based index; and for a batch issued in rapid
succession (the millisecond clock nondecreasing over the loop with total
drift below 1000000 - N), the N seeds are pairwise distinct. -/
theorem random_seeds_formula_and_distinct (clock : Nat → Nat) (sv : Option Nat)
    (fp : PyStr) (w h N : Nat)
    (hmono : ∀ i j, i ≤ j → j < N → clock i ≤ clock j)
    (hdrift : ∀ i j, i ≤ j → j < N → clock j - clock i + N < 1000000) :
    ((buildUrls clock .Random sv fp w h N).map Prod.snd
      = (List.range N).map fun i => some (clock i % 1000000 + i))
    ∧ ((buildUrls clock .Random sv fp w h N).map Prod.snd).Pairwise (· ≠ ·) := by
  have hmap : (buildUrls clock .Random sv fp w h N).map Prod.snd
      = (List.range N).map fun i => some (clock i % 1000000 + i) := by
    simp [buildUrls, seed_i, List.map_map]
  refine ⟨hmap, ?_⟩
  rw [hmap, List.pairwise_map]
  refine List.Pairwise.imp_of_mem ?_ (List.pairwise_lt_range N)
  intro a b ha hb hab
  rw [List.mem_range] at ha hb
  have h1 := hmono a b (Nat.le_of_lt hab) hb
  have h2 := hdrift a b (Nat.le_of_lt hab) hb
  intro he
  rw [Option.some.injEq] at he
  omega

theorem random_seeds_witness :
    ((buildUrls (fun _ => 999998) .Random none [] 64 64 3).map Prod.snd
      = (List.range 3).map fun i => some ((fun _ => 999998 : Nat → Nat) i % 1000000 + i))
    ∧ ((buildUrls (fun _ => 999998) .Random none [] 64 64 3).map Prod.snd).Pairwise (· ≠ ·) :=
  random_seeds_formula_and_distinct (fun _ => 999998) none [] 64 64 3
    (fun _ _ _ _ => Nat.le_refl _)
    (fun i j _ _ => by show 999998 - 999998 + 3 < 1000000; omega)

/-- C10: every Random-mode seed lies in the interval from 0 to
999999 + N - 1; in particular (second conjunct, at a concrete clock and
N = 2) a Random-mode seed can exceed 999999, the maximum the UI allows
for a user-supplied Fixed seed. -/
theorem random_seed_range :
    (∀ (clock : Nat → Nat) (sv : Option Nat) (fp : PyStr) (w h N s : Nat),
        some s ∈ (buildUrls clock .Random sv fp w h N).map Prod.snd →
          s ≤ 999999 + (N - 1))
    ∧ (∃ s : Nat,
        some s ∈ (buildUrls (fun _ => 999999) .Random none [] 64 64 2).map Prod.snd
        ∧ 999999 < s) := by
  constructor
  · intro clock sv fp w h N s hs
    simp only [buildUrls, seed_i, List.map_map, List.mem_map, List.mem_range,
      Function.comp] at hs
    obtain ⟨i, hi, he⟩ := hs
    rw [Option.some.injEq] at he
    have : clock i % 1000000 < 1000000 := Nat.mod_lt _ (by omega)
    omega
  · exact ⟨1000000, by decide, by decide⟩

theorem random_seed_range_witness : (1000000 : Nat) ≤ 999999 + (2 - 1) :=
  random_seed_range.1 (fun _ => 999999) none [] 64 64 2 1000000 (by decide)

theorem alwaysSafe_props (c : Char) (h : alwaysSafe c = true) :
    pyIsSpace c = false ∧ c.toNat < 128 := by
  simp only [alwaysSafe, Bool.or_eq_true, Bool.and_eq_true, decide_eq_true_eq,
    beq_iff_eq] at h
  rcases h with ((((((⟨h1, h2⟩ | ⟨h1, h2⟩) | ⟨h1, h2⟩) | h) | h) | h) | h)
  · exact ⟨pyIsSpace_false_of_toNat c (by omega), by omega⟩
  · exact ⟨pyIsSpace_false_of_toNat c (by omega), by omega⟩
  · exact ⟨pyIsSpace_false_of_toNat c (by omega), by omega⟩
  · subst h; exact ⟨by decide, by decide⟩
  · subst h; exact ⟨by decide, by decide⟩
  · subst h; exact ⟨by decide, by decide⟩
  · subst h; exact ⟨by decide, by decide⟩

theorem hexDigit_props (n : Nat) (h : n < 16) :
    alwaysSafe (hexDigit n) = true := by
  interval_cases n <;> decide

theorem utf8Bytes_lt_256 (c : Char) (b : Nat) (hb : b ∈ utf8Bytes c) : b < 256 := by
  have hv : c.toNat < 1114112 := by
    rcases c.valid with h | ⟨h1, h2⟩
    · exact Nat.lt_trans h (by norm_num)
    · exact h2
  simp only [utf8Bytes] at hb
  split at hb
  · simp only [List.mem_singleton] at hb
    omega
  · split at hb
    · simp only [List.mem_cons, List.mem_singleton] at hb
      rcases hb with rfl | rfl | h
      · omega
      · omega
      · simp at h
    · split at hb
      · simp only [List.mem_cons, List.mem_singleton] at hb
        rcases hb with rfl | rfl | rfl | h
        · omega
        · omega
        · omega
        · simp at h
      · simp only [List.mem_cons, List.mem_singleton] at hb
        rcases hb with rfl | rfl | rfl | rfl | h
        · omega
        · omega
        · omega
        · omega
        · simp at h

/-- C4 counterexample: the slash in the prompt "a/b" is an ASCII
punctuation character outside quote's always-safe set, yet quote leaves
it unencoded (the default safe set of urllib.parse.quote is the slash),
so the URL's prompt segment embeds it verbatim and is not confined to a
single path segment. -/
theorem quote_leaves_slash_unencoded :
    pollinations_url (("a/b").toList) 640 640 none
      = ("https://image.pollinations.ai/prompt/a/b?width=640&height=640").toList
    ∧ '/' ∈ quote (("a/b").toList)
    ∧ alwaysSafe '/' = false := by
  refine ⟨by decide, by decide, by decide⟩

/-- C4 (amended): quote percent-encodes every character of the prompt
outside ASCII alphanumerics, the marks underscore, period, hyphen and
tilde, and the slash; consequently every character of its output is
non-whitespace ASCII and is either an always-safe character, a slash
passed through unencoded, or the percent sign of an escape. -/
theorem quote_output_charset (p : PyStr) (c : Char) (hc : c ∈ quote p) :
    pyIsSpace c = false ∧ c.toNat < 128
    ∧ (alwaysSafe c = true ∨ c = '/' ∨ c = '%') := by
  simp only [quote, List.mem_flatMap] at hc
  obtain ⟨a, _, hca⟩ := hc
  by_cases hsafe : (alwaysSafe a || a == '/') = true
  · rw [if_pos hsafe] at hca
    simp only [List.mem_singleton] at hca
    subst hca
    simp only [Bool.or_eq_true, beq_iff_eq] at hsafe
    rcases hsafe with h | h
    · exact ⟨(alwaysSafe_props c h).1, (alwaysSafe_props c h).2, Or.inl h⟩
    · subst h; exact ⟨by decide, by decide, Or.inr (Or.inl rfl)⟩
  · rw [if_neg hsafe] at hca
    simp only [List.mem_flatMap] at hca
    obtain ⟨b, hb, hcb⟩ := hca
    have hb256 := utf8Bytes_lt_256 a b hb
    simp only [pctByte, List.mem_cons, List.not_mem_nil, or_false] at hcb
    rcases hcb with rfl | rfl | rfl
    · exact ⟨by decide, by decide, Or.inr (Or.inr rfl)⟩
    · have h16 : b / 16 < 16 := by omega
      have hs := hexDigit_props (b / 16) h16
      exact ⟨(alwaysSafe_props _ hs).1, (alwaysSafe_props _ hs).2, Or.inl hs⟩
    · have h16 : b % 16 < 16 := by omega
      have hs := hexDigit_props (b % 16) h16
      exact ⟨(alwaysSafe_props _ hs).1, (alwaysSafe_props _ hs).2, Or.inl hs⟩

theorem quote_output_charset_witness :
    pyIsSpace 'a' = false ∧ ('a').toNat < 128
    ∧ (alwaysSafe 'a' = true ∨ 'a' = '/' ∨ 'a' = '%') :=
  quote_output_charset (("a b").toList) 'a' (by decide)

/-- C5: with no cache entry for the URL, a fetch at time t1 invokes the
network and populates the cache; a second fetch of the same URL before
t1 + 3600 returns the cached bytes with no network call and leaves the
cache unchanged; a fetch at or after t1 + 3600 invokes the network again. -/
theorem cache_ttl_behavior (net : Net) (c0 : Cache) (url : PyStr)
    (t1 t2 t3 : Nat) (b : List Nat)
    (habs : c0.lookup url = none) (hnet : net t1 url = .ok b)
    (_h12 : t1 ≤ t2) (hfresh : t2 < t1 + 3600) (hexp : t1 + 3600 ≤ t3) :
    fetch_image_bytes net t1 c0 url = (.ok b, (url, b, t1) :: c0, true)
    ∧ fetch_image_bytes net t2 ((url, b, t1) :: c0) url = (.ok b, (url, b, t1) :: c0, false)
    ∧ (fetch_image_bytes net t3 ((url, b, t1) :: c0) url).2.2 = true := by
  refine ⟨?_, ?_, ?_⟩
  · rw [fetch_image_bytes, habs, netFetch, hnet]
  · rw [fetch_image_bytes]
    simp only [List.lookup_cons_self]
    rw [CACHE_TTL, if_pos hfresh]
  · rw [fetch_image_bytes]
    simp only [List.lookup_cons_self]
    rw [CACHE_TTL, if_neg (by omega)]
    rw [netFetch]
    cases net t3 url <;> rfl

theorem cache_ttl_witness :
    fetch_image_bytes (fun _ _ => .ok [7]) 0 [] (("u").toList)
      = (.ok [7], [((("u").toList), [7], 0)], true)
    ∧ fetch_image_bytes (fun _ _ => .ok [7]) 1800 [((("u").toList), [7], 0)] (("u").toList)
      = (.ok [7], [((("u").toList), [7], 0)], false)
    ∧ (fetch_image_bytes (fun _ _ => .ok [7]) 3600 [((("u").toList), [7], 0)] (("u").toList)).2.2
      = true :=
  cache_ttl_behavior (fun _ _ => .ok [7]) [] (("u").toList) 0 1800 3600 [7]
    rfl rfl (by omega) (by omega) (by omega)

theorem downloadLoop_counts (net : Net) (times : Nat → Nat) (ts style fp : PyStr)
    (w h : Nat) (urls : List (PyStr × Option Nat)) :
    ∀ (idx : Nat) (c : Cache) (hist : List GenRecord),
      (downloadLoop net times ts style fp w h idx c hist urls).attempts = urls.map Prod.fst
      ∧ (downloadLoop net times ts style fp w h idx c hist urls).images.length
          + (downloadLoop net times ts style fp w h idx c hist urls).failures.length
          = urls.length := by
  induction urls with
  | nil => intro idx c hist; simp [downloadLoop]
  | cons hd tl ih =>
    intro idx c hist
    obtain ⟨url, s⟩ := hd
    rcases hf : fetch_image_bytes net (times idx) c url with ⟨r, c1, called⟩
    cases r with
    | ok b =>
      obtain ⟨h2a, h2b⟩ := ih (idx + 1) c1 (⟨url, fp, style, w, h, s, ts⟩ :: hist)
      simp only [downloadLoop, hf, List.map_cons, List.length_cons]
      rw [h2a]
      simp only [List.length_cons]
      exact ⟨trivial, by omega⟩
    | error e =>
      obtain ⟨h2a, h2b⟩ := ih (idx + 1) c1 hist
      simp only [downloadLoop, hf, List.map_cons, List.length_cons]
      rw [h2a]
      simp only [List.length_cons]
      exact ⟨trivial, by omega⟩

/-- C6: the batch makes exactly variationCount fetch attempts, one per
variation, sequentially in variation order (the attempted URLs are the
built URLs in order), and the number of successful images plus the number
of recorded failures equals variationCount; a failure never halts the loop. -/
theorem batch_attempts_and_counts (net : Net) (clock times : Nat → Nat)
    (ts style fp : PyStr) (w h : Nat) (mode : SeedMode) (sv : Option Nat)
    (variations : Nat) (c : Cache) (hist : List GenRecord) :
    (downloadLoop net times ts style fp w h 1 c hist
        (buildUrls clock mode sv fp w h variations)).attempts
      = (buildUrls clock mode sv fp w h variations).map Prod.fst
    ∧ (downloadLoop net times ts style fp w h 1 c hist
        (buildUrls clock mode sv fp w h variations)).images.length
      + (downloadLoop net times ts style fp w h 1 c hist
          (buildUrls clock mode sv fp w h variations)).failures.length
      = variations := by
  have h2 := downloadLoop_counts net times ts style fp w h
    (buildUrls clock mode sv fp w h variations) 1 c hist
  refine ⟨h2.1, ?_⟩
  rw [h2.2]
  simp [buildUrls]

/-- C9: a prompt that is empty after stripping is rejected before batch
generation: the handler builds no URL, attempts no fetch, and leaves the
cache, the history and the favorites unchanged; with a nonblank prompt
the handler proceeds to a batch of exactly variationCount URLs. -/
theorem blank_prompt_rejected (net : Net) (clock times : Nat → Nat)
    (ts prompt negative style : PyStr) (w h variations : Nat) (mode : SeedMode)
    (sv : Option Nat) (cache : Cache) (s : SessionState) :
    (pyStrip prompt = [] →
      (generateHandler net clock times ts prompt negative style w h variations
          mode sv cache s).state = s
      ∧ (generateHandler net clock times ts prompt negative style w h variations
          mode sv cache s).cache = cache
      ∧ (generateHandler net clock times ts prompt negative style w h variations
          mode sv cache s).urls = []
      ∧ (generateHandler net clock times ts prompt negative style w h variations
          mode sv cache s).batch.attempts = [])
    ∧ (pyStrip prompt ≠ [] →
      (generateHandler net clock times ts prompt negative style w h variations
          mode sv cache s).urls.length = variations) := by
  constructor
  · intro hb
    rw [generateHandler, if_pos hb]
    exact ⟨rfl, rfl, rfl, rfl⟩
  · intro hb
    rw [generateHandler, if_neg hb]
    simp [buildUrls]

theorem blank_prompt_witness :
    (generateHandler (fun _ _ => .error []) (fun _ => 0) (fun _ => 0) []
        ((" ").toList) [] (("Anime").toList) 64 64 4 .Fixed (some 5) [] ⟨[], []⟩).state
      = ⟨[], []⟩
    ∧ (generateHandler (fun _ _ => .error []) (fun _ => 0) (fun _ => 0) []
        ((" ").toList) [] (("Anime").toList) 64 64 4 .Fixed (some 5) [] ⟨[], []⟩).urls
      = []
    ∧ (generateHandler (fun _ _ => .error []) (fun _ => 0) (fun _ => 0) []
        (("cat").toList) [] (("Anime").toList) 64 64 4 .Fixed (some 5) [] ⟨[], []⟩).urls.length
      = 4 := by
  have h1 := (blank_prompt_rejected (fun _ _ => .error []) (fun _ => 0) (fun _ => 0) []
    ((" ").toList) [] (("Anime").toList) 64 64 4 .Fixed (some 5) [] ⟨[], []⟩).1 (by decide)
  have h2 := (blank_prompt_rejected (fun _ _ => .error []) (fun _ => 0) (fun _ => 0) []
    (("cat").toList) [] (("Anime").toList) 64 64 4 .Fixed (some 5) [] ⟨[], []⟩).2 (by decide)
  exact ⟨h1.1, h1.2.2.1, h2⟩

end T2I
